/-
Verification of the RetriBERT dual encoder
(src/transformers/modeling_retribert.py).

The development shallowly embeds the code of `RetriBertModel`:
`embed_sentences_checkpointed`, `embed_questions`, `embed_answers` and
`forward` (the batched contrastive loss), together with the shape
contracts of the tensor operations (`torch.mm`,
`nn.CrossEntropyLoss`) that `forward` delegates to.

Batches are lists with one element per batch row; the external BERT
encoder is an opaque record of per-row functions (BERT processes the
rows of a batch independently: the embedding lookup, attention within
one sequence, and pooling all act on a single row).  Real-valued
tensor contents are modelled over `ℝ`; a raised Python exception is
modelled by `none` / `Except.error`.
-/
import Mathlib

open Matrix

/-- Model of one sentence encoder (a `BertModel`): the embedding-lookup
sub-layer (`sent_encoder.embeddings`), the attention-mask extension utility
(`sent_encoder.get_extended_attention_mask`), and the transformer stack
followed by the pooler (`sent_encoder.encoder` + `sent_encoder.pooler`,
i.e. the body of `partial_encode`).  Each component acts on one batch row
at a time. -/
structure SentEncoder (Tok Msk Emb EMsk Pooled : Type) where
  embedRow : Tok → Emb
  extendMaskRow : Msk → EMsk
  encodePoolRow : Emb → EMsk → Pooled

/-- Model of the single-pass call `sent_encoder(input_ids,
attention_mask=attention_mask)[1]`: the full BERT forward pass returning the
pooled output, one vector per batch row (embedding lookup, then encoder and
pooler, under the extended attention mask). -/
def sentEncoderPooled {Tok Msk Emb EMsk Pooled : Type}
    (E : SentEncoder Tok Msk Emb EMsk Pooled)
    (input_ids : List Tok) (attention_mask : List Msk) : List Pooled :=
  (input_ids.zip attention_mask).map fun p =>
    E.encodePoolRow (E.embedRow p.1) (E.extendMaskRow p.2)

/-- `math.ceil(B / C)` for a positive integer `C`. -/
def numChunks (B C : ℕ) : ℕ := (B + C - 1) / C

/-- Model of `RetriBertModel.embed_sentences_checkpointed`.

`none` models a raised Python exception.  The source guard is
`checkpoint_batch_size < 0 or input_ids.shape[0] < checkpoint_batch_size`;
when it fails with `checkpoint_batch_size = 0` the loop bound
`math.ceil(input_ids.shape[0] / checkpoint_batch_size)` raises
`ZeroDivisionError`.  In the checkpointed branch, the embedding layer is run
once on the whole batch, the extended attention mask is computed once, and
the encoder/pooler (`partial_encode`, run under `checkpoint.checkpoint`,
which is value-transparent) is applied to each contiguous slice
`[b*C : (b+1)*C]`; the per-slice pooled outputs are concatenated by
`torch.cat(pooled_output_list, dim=0)`. -/
def embed_sentences_checkpointed {Tok Msk Emb EMsk Pooled : Type}
    (sent_encoder : SentEncoder Tok Msk Emb EMsk Pooled)
    (input_ids : List Tok) (attention_mask : List Msk)
    (checkpoint_batch_size : Int) : Option (List Pooled) :=
  if checkpoint_batch_size < 0 ∨ (input_ids.length : Int) < checkpoint_batch_size then
    some (sentEncoderPooled sent_encoder input_ids attention_mask)
  else if checkpoint_batch_size = 0 then
    none
  else
    some (((List.range (numChunks input_ids.length checkpoint_batch_size.toNat)).map fun b =>
      ((((input_ids.map sent_encoder.embedRow).drop (b * checkpoint_batch_size.toNat)).take
          checkpoint_batch_size.toNat).zip
        (((attention_mask.map sent_encoder.extendMaskRow).drop
            (b * checkpoint_batch_size.toNat)).take checkpoint_batch_size.toNat)).map fun p =>
          sent_encoder.encodePoolRow p.1 p.2).flatten)

/-- The contiguous sub-batches `[b*C : (b+1)*C]` visited by the checkpointed
loop, in partition (index) order. -/
def batchChunks {α : Type} (l : List α) (C : ℕ) : List (List α) :=
  (List.range (numChunks l.length C)).map fun b => (l.drop (b * C)).take C

/-- Model of `RetriBertConfig`: the immutable configuration record read at
construction time. -/
structure RetriBertConfig where
  hidden_size : ℕ
  projection_dim : ℕ
  share_encoders : Bool
  hidden_dropout_prob : ℝ
  num_hidden_layers : ℕ

/-- Model of the `RetriBertModel` module state after `__init__`:
`self.bert_query`, `self.bert_doc` (which is `None` in shared-encoder mode),
`self.dropout`, `self.project_query` and `self.project_doc`.  The projection
modules are modelled as opaque per-row maps `Pooled → Proj`; the dropout
module as a per-row map `Pooled → Pooled`. -/
structure RetriBert (Tok Msk Emb EMsk Pooled Proj : Type) where
  bert_query : SentEncoder Tok Msk Emb EMsk Pooled
  bert_doc : Option (SentEncoder Tok Msk Emb EMsk Pooled)
  dropout : Pooled → Pooled
  project_query : Pooled → Proj
  project_doc : Pooled → Proj

/-- Model of `RetriBertModel.__init__`: the freshly constructed
`BertModel(config)` instances and `nn.Linear`/`nn.Dropout` modules are
supplied by the external runtime; line 84 sets `self.bert_doc = None if
config.share_encoders else BertModel(config)`. -/
def RetriBert.init {Tok Msk Emb EMsk Pooled Proj : Type}
    (config : RetriBertConfig)
    (bert_query bert_doc : SentEncoder Tok Msk Emb EMsk Pooled)
    (dropout : Pooled → Pooled)
    (project_query project_doc : Pooled → Proj) :
    RetriBert Tok Msk Emb EMsk Pooled Proj :=
  ⟨bert_query, if config.share_encoders then none else some bert_doc,
    dropout, project_query, project_doc⟩

/-- Model of `RetriBertModel.embed_questions`. -/
def embed_questions {Tok Msk Emb EMsk Pooled Proj : Type}
    (m : RetriBert Tok Msk Emb EMsk Pooled Proj)
    (input_ids : List Tok) (attention_mask : List Msk)
    (checkpoint_batch_size : Int) : Option (List Proj) :=
  (embed_sentences_checkpointed m.bert_query input_ids attention_mask
    checkpoint_batch_size).map (List.map m.project_query)

/-- Model of `RetriBertModel.embed_answers`: the encoder is
`self.bert_query if self.bert_doc is None else self.bert_doc`. -/
def embed_answers {Tok Msk Emb EMsk Pooled Proj : Type}
    (m : RetriBert Tok Msk Emb EMsk Pooled Proj)
    (input_ids : List Tok) (attention_mask : List Msk)
    (checkpoint_batch_size : Int) : Option (List Proj) :=
  (embed_sentences_checkpointed (m.bert_doc.getD m.bert_query) input_ids attention_mask
    checkpoint_batch_size).map (List.map m.project_doc)

/-- An untyped real matrix, as handled by the tensor runtime: a shape plus
entries. -/
structure Mat where
  rows : ℕ
  cols : ℕ
  entry : Matrix (Fin rows) (Fin cols) ℝ

/-- Model of `torch.Tensor.t()`. -/
def Mat.t (A : Mat) : Mat := ⟨A.cols, A.rows, A.entryᵀ⟩

/-- View a dimension-typed matrix as an untyped tensor. -/
def Mat.ofMatrix {B d : ℕ} (M : Matrix (Fin B) (Fin d) ℝ) : Mat := ⟨B, d, M⟩

/-- Model of `torch.mm`: matrix product, with the runtime's shape check that
the inner dimensions agree; a mismatch raises a shape error. -/
noncomputable def mm (A B : Mat) : Except String Mat :=
  if h : A.cols = B.rows then
    .ok ⟨A.rows, B.cols, A.entry * B.entry.submatrix (Fin.cast h) id⟩
  else
    .error "mm: mat1 and mat2 shapes cannot be multiplied"

/-- An integer target tensor (class indices), as fed to the loss. -/
structure Targets where
  len : ℕ
  val : Fin len → ℕ

/-- Model of `torch.arange(n)`. -/
def arange (n : ℕ) : Targets := ⟨n, Fin.val⟩

/-- Model of `nn.CrossEntropyLoss(reduction="mean")` applied to logits of
shape `(N, C)` and integer targets: the runtime checks that the target batch
length equals `N` and every class index is below `C` (a mismatch raises a
shape error), then returns the mean over the batch of
`log (Σ_j exp xᵢⱼ) - xᵢ,tᵢ`.  (For `N = 0` the division `0 / 0` stands in
for the runtime's NaN: no error is raised on an empty batch.) -/
noncomputable def ce_loss (input : Mat) (target : Targets) : Except String ℝ :=
  if h : target.len = input.rows ∧ ∀ i : Fin target.len, target.val i < input.cols then
    .ok ((∑ i : Fin input.rows,
        (Real.log (∑ j : Fin input.cols, Real.exp (input.entry i j))
          - input.entry i ⟨target.val (Fin.cast h.1.symm i), h.2 (Fin.cast h.1.symm i)⟩))
      / (input.rows : ℝ))
  else
    .error "ce_loss: input and target shapes disagree"

/-- Model of the loss computation in `RetriBertModel.forward` (lines
181-184), given the already-computed query and document embedding matrices:
`compare_scores = torch.mm(q_reps, a_reps.t())`,
`loss_qa = ce_loss(compare_scores, arange(compare_scores.shape[1]))`,
`loss_aq = ce_loss(compare_scores.t(), arange(compare_scores.shape[0]))`,
`loss = (loss_qa + loss_aq) / 2`; a raised shape error propagates. -/
noncomputable def scoreE (q_reps a_reps : Mat) : Except String ℝ :=
  (mm q_reps a_reps.t).bind fun compare_scores =>
    (ce_loss compare_scores (arange compare_scores.cols)).bind fun loss_qa =>
      (ce_loss compare_scores.t (arange compare_scores.rows)).map fun loss_aq =>
        (loss_qa + loss_aq) / 2

/-- `nn.CrossEntropyLoss(reduction="mean")` on a dimension-typed logits
matrix with in-range targets (the shape checks hold by typing). -/
noncomputable def ce_loss_fin {n c : ℕ} (input : Matrix (Fin n) (Fin c) ℝ)
    (target : Fin n → Fin c) : ℝ :=
  (∑ i : Fin n, (Real.log (∑ j : Fin c, Real.exp (input i j)) - input i (target i)))
    / (n : ℝ)

/-- The loss of `RetriBertModel.forward` on well-shaped, index-aligned
embedding matrices (both of shape `(B, d)`): for square `compare_scores`,
`torch.arange(compare_scores.shape[1])` and
`torch.arange(compare_scores.shape[0])` are both the identity labelling. -/
noncomputable def score_fin {B d : ℕ} (Q D : Matrix (Fin B) (Fin d) ℝ) : ℝ :=
  (ce_loss_fin (Q * Dᵀ) id + ce_loss_fin (Q * Dᵀ)ᵀ id) / 2

/-- Cross-entropy of one row of logits against a true label, as the
specification words it: minus the log of the softmax probability of the true
label. -/
noncomputable def softmaxCE {B : ℕ} (logits : Fin B → ℝ) (label : Fin B) : ℝ :=
  -Real.log (Real.exp (logits label) / ∑ j : Fin B, Real.exp (logits j))

/-- Mean cross-entropy over the rows of a square similarity matrix with true
label equal to the row index, as the specification words it. -/
noncomputable def meanRowCE {B : ℕ} (S : Matrix (Fin B) (Fin B) ℝ) : ℝ :=
  (∑ i : Fin B, softmaxCE (S i) i) / (B : ℝ)

/-- The scorer of spec §4.2, written from the specification's words:
`S = Q·Dᵀ`; the loss is the arithmetic mean of the mean cross-entropy over
the rows of `S` (true label = row index) and the mean cross-entropy over the
rows of `Sᵀ` (true label = row index). -/
noncomputable def specScore {B d : ℕ} (Q D : Matrix (Fin B) (Fin d) ℝ) : ℝ :=
  (meanRowCE (Q * Dᵀ) + meanRowCE (Q * Dᵀ)ᵀ) / 2

/-- Stack a batch of projected embedding vectors (one list per row) into an
untyped tensor. -/
noncomputable def matOfLists (l : List (List ℝ)) : Mat :=
  ⟨l.length, (l.headI).length, fun i j => (l.get i).getD j.val 0⟩

/-- Model of `RetriBertModel.forward`: embed the query batch and the
document batch, then run the contrastive loss on the two embedding
matrices. -/
noncomputable def RetriBert.forward {Tok Msk Emb EMsk Pooled : Type}
    (m : RetriBert Tok Msk Emb EMsk Pooled (List ℝ))
    (input_ids_query : List Tok) (attention_mask_query : List Msk)
    (input_ids_doc : List Tok) (attention_mask_doc : List Msk)
    (checkpoint_batch_size : Int) : Option (Except String ℝ) :=
  (embed_questions m input_ids_query attention_mask_query checkpoint_batch_size).bind
    fun q_reps =>
      (embed_answers m input_ids_doc attention_mask_doc checkpoint_batch_size).map
        fun a_reps => scoreE (matOfLists q_reps) (matOfLists a_reps)

/-- A concrete sentence encoder over `ℕ` rows, used as a witness input. -/
def demoEnc : SentEncoder ℕ ℕ ℕ ℕ ℕ :=
  ⟨fun t => t + 1, fun msk => msk * 2, fun e msk => e * 100 + msk⟩

/-- A second concrete sentence encoder, distinguishable from `demoEnc`. -/
def demoEnc2 : SentEncoder ℕ ℕ ℕ ℕ ℕ :=
  ⟨fun t => t, fun msk => msk, fun e msk => e + msk⟩

/-- A concrete configuration with encoder sharing enabled. -/
noncomputable def demoCfg : RetriBertConfig := ⟨4, 2, true, 0.1, 2⟩

/-- A zero-row, one-column matrix. -/
noncomputable def zeroRowMat : Mat := ⟨0, 1, fun i _ => i.elim0⟩

/-- Zipping commutes with dropping the same number of rows on both sides. -/
theorem zip_drop_eq {α β : Type} :
    ∀ (n : ℕ) (l : List α) (m : List β), (l.drop n).zip (m.drop n) = (l.zip m).drop n := by
  intro n
  induction n with
  | zero => intro l m; rfl
  | succ n ih =>
    intro l m
    cases l with
    | nil => simp
    | cons a l =>
      cases m with
      | nil => simp
      | cons b m => simpa using ih l m

/-- Zipping commutes with taking the same number of rows on both sides. -/
theorem zip_take_eq {α β : Type} :
    ∀ (n : ℕ) (l : List α) (m : List β), (l.take n).zip (m.take n) = (l.zip m).take n := by
  intro n
  induction n with
  | zero => intro l m; simp
  | succ n ih =>
    intro l m
    cases l with
    | nil => simp
    | cons a l =>
      cases m with
      | nil => simp
      | cons b m => simpa using ih l m

/-- Concatenating the slices `[b*C : (b+1)*C]` for `b = 0, …, k-1`
reconstructs the whole list, provided `k` slices suffice to cover it. -/
theorem range_chunks_flatten {α : Type} (C : ℕ) :
    ∀ (k : ℕ) (l : List α), l.length ≤ k * C →
      ((List.range k).map fun b => (l.drop (b * C)).take C).flatten = l := by
  intro k
  induction k with
  | zero =>
    intro l hl
    have hnil : l = [] := List.length_eq_zero.mp (Nat.le_zero.mp (by simpa using hl))
    subst hnil
    rfl
  | succ k ih =>
    intro l hl
    have hlen : (l.drop C).length ≤ k * C := by
      rw [List.length_drop]
      refine Nat.sub_le_iff_le_add.mpr ?_
      calc l.length ≤ (k + 1) * C := hl
        _ = k * C + C := by rw [Nat.succ_mul]
    rw [List.range_succ_eq_map, List.map_cons, List.map_map, List.flatten_cons]
    have htail : (List.range k).map ((fun b => (l.drop (b * C)).take C) ∘ Nat.succ)
        = (List.range k).map fun b => ((l.drop C).drop (b * C)).take C := by
      congr 1
      funext b
      simp only [Function.comp]
      rw [List.drop_drop, Nat.succ_mul, Nat.add_comm]
    rw [htail, ih (l.drop C) hlen]
    simp [List.take_append_drop]

/-- `range_chunks_flatten` with a function mapped over every slice. -/
theorem chunked_map_flatten {α β : Type} (f : α → β) (C k : ℕ) (l : List α)
    (h : l.length ≤ k * C) :
    ((List.range k).map fun b => ((l.drop (b * C)).take C).map f).flatten = l.map f := by
  have h2 : (l.map f).length ≤ k * C := by rw [List.length_map]; exact h
  have hbase := range_chunks_flatten C k (l.map f) h2
  have hfun : ∀ b : ℕ,
      ((l.drop (b * C)).take C).map f = ((l.map f).drop (b * C)).take C := by
    intro b
    rw [List.map_take, List.map_drop]
  simp only [hfun]
  exact hbase

/-- For a positive batch, `ceil(B / C) = (B - 1) / C + 1`. -/
theorem numChunks_eq (B C : ℕ) (hB : 0 < B) (hC : 0 < C) :
    numChunks B C = (B - 1) / C + 1 := by
  unfold numChunks
  have h : B + C - 1 = (B - 1) + C := by omega
  rw [h, Nat.add_div_right _ hC]

/-- Any natural is below the next multiple of `C` after its `C`-quotient. -/
theorem lt_div_succ_mul (a C : ℕ) (hC : 0 < C) : a < (a / C + 1) * C := by
  have h1 := Nat.div_add_mod a C
  have h2 := Nat.mod_lt a hC
  calc a = C * (a / C) + a % C := h1.symm
    _ < C * (a / C) + C := Nat.add_lt_add_left h2 _
    _ = (a / C + 1) * C := by ring

/-- `ceil(B / C)` slices of size `C` cover all `B` rows. -/
theorem le_numChunks_mul (B C : ℕ) (hC : 0 < C) : B ≤ numChunks B C * C := by
  rcases Nat.eq_zero_or_pos B with hB | hB
  · subst hB; exact Nat.zero_le _
  · rw [numChunks_eq B C hB hC]
    have h : B - 1 + 1 ≤ ((B - 1) / C + 1) * C := lt_div_succ_mul (B - 1) C hC
    rwa [Nat.sub_add_cancel hB] at h

/-- When the guard `checkpoint_batch_size < 0` holds, the whole batch is
processed in a single full forward pass. -/
theorem embed_single_pass {Tok Msk Emb EMsk Pooled : Type}
    (E : SentEncoder Tok Msk Emb EMsk Pooled)
    (input_ids : List Tok) (attention_mask : List Msk)
    (checkpoint_batch_size : Int)
    (h : checkpoint_batch_size < 0 ∨ (input_ids.length : Int) < checkpoint_batch_size) :
    embed_sentences_checkpointed E input_ids attention_mask checkpoint_batch_size
      = some (sentEncoderPooled E input_ids attention_mask) := by
  unfold embed_sentences_checkpointed
  rw [if_pos h]

/-- With active checkpointing (`0 < C ≤ B`) the chunked computation returns
exactly the single-pass pooled output. -/
theorem embed_active {Tok Msk Emb EMsk Pooled : Type}
    (E : SentEncoder Tok Msk Emb EMsk Pooled)
    (input_ids : List Tok) (attention_mask : List Msk)
    (C : Int) (hC : 0 < C) (hB : C ≤ (input_ids.length : Int)) :
    embed_sentences_checkpointed E input_ids attention_mask C
      = some (sentEncoderPooled E input_ids attention_mask) := by
  have hcond : ¬ (C < 0 ∨ (input_ids.length : Int) < C) := by omega
  have hzero : ¬ (C = 0) := by omega
  have hCn : 0 < C.toNat := by omega
  unfold embed_sentences_checkpointed
  rw [if_neg hcond, if_neg hzero]
  refine congrArg some ?_
  have hchunk : ∀ b : ℕ,
      ((((input_ids.map E.embedRow).drop (b * C.toNat)).take C.toNat).zip
        (((attention_mask.map E.extendMaskRow).drop (b * C.toNat)).take C.toNat)).map
        (fun p => E.encodePoolRow p.1 p.2)
      = (((input_ids.zip attention_mask).drop (b * C.toNat)).take C.toNat).map
          fun p => E.encodePoolRow (E.embedRow p.1) (E.extendMaskRow p.2) := by
    intro b
    rw [zip_take_eq, zip_drop_eq, List.zip_map, ← List.map_drop, ← List.map_take,
      List.map_map]
    congr 1
  simp only [hchunk]
  have hlen : (input_ids.zip attention_mask).length
      ≤ numChunks input_ids.length C.toNat * C.toNat := by
    rw [List.length_zip]
    exact le_trans (min_le_left _ _) (le_numChunks_mul _ _ hCn)
  exact chunked_map_flatten _ C.toNat _ _ hlen

/-- C1: for every batch, every (abstract) parameter setting of the encoder,
and every checkpoint_batch_size `C` with `0 < C <` batch size, checkpointing
yields exactly the output of the non-checkpointed single-pass computation
(`checkpoint_batch_size = -1`): a pure performance/memory optimisation. -/
theorem checkpointing_preserves_output {Tok Msk Emb EMsk Pooled : Type}
    (E : SentEncoder Tok Msk Emb EMsk Pooled)
    (input_ids : List Tok) (attention_mask : List Msk)
    (C : Int) (hC : 0 < C) (hB : C < (input_ids.length : Int)) :
    embed_sentences_checkpointed E input_ids attention_mask C
      = embed_sentences_checkpointed E input_ids attention_mask (-1) := by
  rw [embed_active E input_ids attention_mask C hC (le_of_lt hB),
    embed_single_pass E input_ids attention_mask (-1) (Or.inl (by omega))]

/-- Witness for C1 at a concrete encoder, batch of three rows and
checkpoint size two. -/
theorem checkpointing_preserves_output_witness :
    (0 : Int) < 2 ∧ (2 : Int) < (([10, 20, 30] : List ℕ).length : Int) ∧
    embed_sentences_checkpointed demoEnc [10, 20, 30] [1, 1, 0] 2
      = embed_sentences_checkpointed demoEnc [10, 20, 30] [1, 1, 0] (-1) :=
  ⟨by decide, by decide,
    checkpointing_preserves_output demoEnc [10, 20, 30] [1, 1, 0] 2 (by decide) (by decide)⟩

/-- C3 (code bug): at `checkpoint_batch_size = 0` the guard
`checkpoint_batch_size < 0 or input_ids.shape[0] < checkpoint_batch_size`
fails, so instead of a single full-gradient pass the code enters the
checkpointed branch and `math.ceil(input_ids.shape[0] / 0)` raises
`ZeroDivisionError` (modelled as `none`), for every batch. -/
theorem checkpoint_zero_raises {Tok Msk Emb EMsk Pooled : Type}
    (E : SentEncoder Tok Msk Emb EMsk Pooled)
    (input_ids : List Tok) (attention_mask : List Msk) :
    embed_sentences_checkpointed E input_ids attention_mask 0 = none := by
  unfold embed_sentences_checkpointed
  rw [if_neg (by omega), if_pos rfl]

/-- C6: with active checkpointing (`0 < C <` batch size `B`) the loop visits
`ceil(B / C)` contiguous sub-batches in index order; every sub-batch except
the last has size exactly `C`, every sub-batch is nonempty and of size at
most `C` (so an uneven final partition is processed normally), their
concatenation in partition order is exactly the original batch (covering
all `B` rows exactly once), and the checkpointed embedding succeeds. -/
theorem checkpoint_partition_shape {Tok Msk Emb EMsk Pooled : Type}
    (E : SentEncoder Tok Msk Emb EMsk Pooled)
    (input_ids : List Tok) (attention_mask : List Msk)
    (C : ℕ) (hC : 0 < C) (hB : C < input_ids.length) :
    (batchChunks input_ids C).length = numChunks input_ids.length C
    ∧ (∀ c ∈ (batchChunks input_ids C).dropLast, c.length = C)
    ∧ (∀ c ∈ batchChunks input_ids C, 0 < c.length ∧ c.length ≤ C)
    ∧ (batchChunks input_ids C).flatten = input_ids
    ∧ (embed_sentences_checkpointed E input_ids attention_mask (C : Int)).isSome = true := by
  have hB0 : 0 < input_ids.length := lt_trans hC hB
  have hm : numChunks input_ids.length C = (input_ids.length - 1) / C + 1 :=
    numChunks_eq _ _ hB0 hC
  refine ⟨by simp [batchChunks], ?_, ?_, ?_, ?_⟩
  · intro c hcmem
    unfold batchChunks at hcmem
    rw [hm, List.range_succ, List.map_append, List.map_cons, List.map_nil,
      List.dropLast_concat] at hcmem
    obtain ⟨b, hb, rfl⟩ := List.mem_map.mp hcmem
    rw [List.mem_range] at hb
    rw [List.length_take, List.length_drop]
    refine min_eq_left ?_
    have hle : b * C + C ≤ input_ids.length := by
      have h1 : (b + 1) * C ≤ (input_ids.length - 1) / C * C :=
        Nat.mul_le_mul_right C hb
      calc b * C + C = (b + 1) * C := by rw [Nat.succ_mul]
        _ ≤ (input_ids.length - 1) / C * C := h1
        _ ≤ input_ids.length - 1 := Nat.div_mul_le_self _ C
        _ ≤ input_ids.length := Nat.sub_le _ 1
    refine Nat.le_sub_of_add_le ?_
    rwa [Nat.add_comm] at hle
  · intro c hcmem
    unfold batchChunks at hcmem
    obtain ⟨b, hbr, rfl⟩ := List.mem_map.mp hcmem
    rw [List.mem_range, hm] at hbr
    rw [List.length_take, List.length_drop]
    constructor
    · refine lt_min hC (Nat.sub_pos_of_lt ?_)
      have hble : b ≤ (input_ids.length - 1) / C := Nat.lt_succ_iff.mp hbr
      have h1 : b * C ≤ (input_ids.length - 1) / C * C := Nat.mul_le_mul_right C hble
      have h3 : b * C ≤ input_ids.length - 1 := le_trans h1 (Nat.div_mul_le_self _ C)
      exact Nat.lt_of_le_of_lt h3 (Nat.sub_lt hB0 Nat.one_pos)
    · exact min_le_left _ _
  · exact range_chunks_flatten C _ input_ids (le_numChunks_mul _ _ hC)
  · rw [embed_active E input_ids attention_mask (C : Int) (by exact_mod_cast hC)
      (by exact_mod_cast le_of_lt hB)]
    rfl

/-- Witness for C6 at a batch of five rows and checkpoint size two, where
the final partition is uneven. -/
theorem checkpoint_partition_shape_witness :
    0 < 2 ∧ 2 < ([10, 20, 30, 40, 50] : List ℕ).length ∧
    ((batchChunks ([10, 20, 30, 40, 50] : List ℕ) 2).length
        = numChunks ([10, 20, 30, 40, 50] : List ℕ).length 2
      ∧ (∀ c ∈ (batchChunks ([10, 20, 30, 40, 50] : List ℕ) 2).dropLast, c.length = 2)
      ∧ (∀ c ∈ batchChunks ([10, 20, 30, 40, 50] : List ℕ) 2, 0 < c.length ∧ c.length ≤ 2)
      ∧ (batchChunks ([10, 20, 30, 40, 50] : List ℕ) 2).flatten = [10, 20, 30, 40, 50]
      ∧ (embed_sentences_checkpointed demoEnc [10, 20, 30, 40, 50] [1, 0, 1, 0, 1]
          ((2 : ℕ) : Int)).isSome = true) :=
  ⟨by decide, by decide,
    checkpoint_partition_shape demoEnc [10, 20, 30, 40, 50] [1, 0, 1, 0, 1] 2
      (by decide) (by decide)⟩

/-- Transposing commutes with viewing a typed matrix as a tensor. -/
theorem Mat.t_ofMatrix {B d : ℕ} (M : Matrix (Fin B) (Fin d) ℝ) :
    (Mat.ofMatrix M).t = Mat.ofMatrix Mᵀ := rfl

/-- `torch.mm(q_reps, a_reps.t())` on two `(B, d)` matrices passes the shape
check and computes `Q * Dᵀ`. -/
theorem mm_ofMatrix {B d : ℕ} (Q D : Matrix (Fin B) (Fin d) ℝ) :
    mm (Mat.ofMatrix Q) (Mat.ofMatrix D).t = .ok (Mat.ofMatrix (Q * Dᵀ)) := by
  unfold mm Mat.ofMatrix Mat.t
  rw [dif_pos rfl, Fin.cast_refl, Matrix.submatrix_id_id]

/-- `ce_loss` on a square logits matrix with `arange` targets passes the
shape checks and computes the typed mean cross-entropy with the identity
labelling. -/
theorem ce_loss_ofMatrix {B : ℕ} (S : Matrix (Fin B) (Fin B) ℝ) :
    ce_loss (Mat.ofMatrix S) (arange B) = .ok (ce_loss_fin S id) := by
  unfold ce_loss arange Mat.ofMatrix
  rw [dif_pos ⟨rfl, fun i => i.isLt⟩]
  rfl

/-- The loss lines of `forward` on two well-shaped `(B, d)` embedding
matrices compute `score_fin`. -/
theorem scoreE_ofMatrix {B d : ℕ} (Q D : Matrix (Fin B) (Fin d) ℝ) :
    scoreE (Mat.ofMatrix Q) (Mat.ofMatrix D) = .ok (score_fin Q D) := by
  unfold scoreE
  rw [mm_ofMatrix]
  simp only [Except.bind]
  rw [show (Mat.ofMatrix (Q * Dᵀ)).cols = B from rfl,
    show (Mat.ofMatrix (Q * Dᵀ)).rows = B from rfl, Mat.t_ofMatrix,
    ce_loss_ofMatrix (Q * Dᵀ), ce_loss_ofMatrix (Q * Dᵀ)ᵀ]
  simp only [Except.bind, Except.map]
  rfl

/-- The spec's per-row softmax cross-entropy, averaged over rows, agrees
with the runtime's log-sum-exp form of the mean cross-entropy. -/
theorem meanRowCE_eq {B : ℕ} (S : Matrix (Fin B) (Fin B) ℝ) :
    meanRowCE S = ce_loss_fin S id := by
  unfold meanRowCE ce_loss_fin softmaxCE
  congr 1
  refine Finset.sum_congr rfl fun i _ => ?_
  have hpos : 0 < ∑ j : Fin B, Real.exp (S i j) :=
    Finset.sum_pos (fun j _ => Real.exp_pos _) ⟨i, Finset.mem_univ i⟩
  rw [Real.log_div (Real.exp_ne_zero _) (ne_of_gt hpos), Real.log_exp, neg_sub]
  rfl

/-- C2: on every pair of index-aligned `(B, d)` embedding matrices, the loss
computed by `forward` is the arithmetic mean of (a) the mean cross-entropy
over the rows of `S = Q·Dᵀ` with true label the row index, and (b) the mean
cross-entropy over the rows of `Sᵀ` with true label the row index. -/
theorem forward_loss_eq_bidirectional_ce {B d : ℕ} (Q D : Matrix (Fin B) (Fin d) ℝ) :
    scoreE (Mat.ofMatrix Q) (Mat.ofMatrix D) = .ok (specScore Q D) := by
  rw [scoreE_ofMatrix]
  unfold specScore score_fin
  rw [meanRowCE_eq, meanRowCE_eq]

/-- C4: swapping the roles of the query and document embedding matrices
leaves the scalar loss unchanged. -/
theorem score_symmetric {B d : ℕ} (Q D : Matrix (Fin B) (Fin d) ℝ) :
    score_fin Q D = score_fin D Q := by
  unfold score_fin
  have h : (Q * Dᵀ)ᵀ = D * Qᵀ := by
    rw [Matrix.transpose_mul, Matrix.transpose_transpose]
  rw [← h, Matrix.transpose_transpose]
  ring

/-- The typed mean cross-entropy with identity labels is invariant under
conjugating the square logits matrix by a permutation. -/
theorem ce_loss_fin_perm {B : ℕ} (S : Matrix (Fin B) (Fin B) ℝ) (p : Equiv.Perm (Fin B)) :
    ce_loss_fin (S.submatrix p p) id = ce_loss_fin S id := by
  unfold ce_loss_fin
  congr 1
  rw [← Equiv.sum_comp p fun i => Real.log (∑ j : Fin B, Real.exp (S i j)) - S i (id i)]
  refine Finset.sum_congr rfl fun i _ => ?_
  simp only [Matrix.submatrix_apply, id_eq]
  congr 1
  congr 1
  exact Equiv.sum_comp p fun j => Real.exp (S (p i) j)

/-- C5: simultaneously permuting the rows of `Q` and of `D` by the same
permutation leaves the scalar loss unchanged. -/
theorem score_perm_invariant {B d : ℕ} (Q D : Matrix (Fin B) (Fin d) ℝ)
    (p : Equiv.Perm (Fin B)) :
    score_fin (Q.submatrix p id) (D.submatrix p id) = score_fin Q D := by
  unfold score_fin
  have hS : Q.submatrix (⇑p) id * (D.submatrix (⇑p) id)ᵀ = (Q * Dᵀ).submatrix (⇑p) (⇑p) := by
    rw [Matrix.transpose_submatrix]
    have h := Matrix.submatrix_mul_equiv Q Dᵀ (⇑p) (Equiv.refl (Fin d)) (⇑p)
    simpa using h
  rw [hS, Matrix.transpose_submatrix, ce_loss_fin_perm, ce_loss_fin_perm]

/-- The loss lines of `forward` raise a shape error exactly when the two
embedding matrices' column counts or row counts disagree. -/
theorem scoreE_isOk_iff (A B : Mat) :
    (scoreE A B).isOk = true ↔ (A.cols = B.cols ∧ A.rows = B.rows) := by
  unfold scoreE mm ce_loss
  by_cases h1 : A.cols = B.t.rows
  · rw [dif_pos h1]
    simp only [Except.bind]
    by_cases h2 : B.rows = A.rows
    · rw [dif_pos ⟨h2, fun i => i.isLt⟩]
      simp only [Except.bind]
      rw [dif_pos ⟨h2.symm, fun i => i.isLt⟩]
      simp only [Except.map]
      exact iff_of_true rfl ⟨h1, h2.symm⟩
    · rw [dif_neg fun hcon => h2 hcon.1]
      simp only [Except.bind, Except.isOk, Except.toBool]
      exact iff_of_false (by simp) fun hrc => h2 hrc.2.symm
  · rw [dif_neg h1]
    simp only [Except.bind, Except.isOk, Except.toBool]
    exact iff_of_false (by simp) fun hrc => h1 hrc.1

/-- C7 counterexample: a zero-row input on which the loss computation does
not fail: the shape checks pass and a (numerically meaningless) empty-batch
mean is produced instead of a shape error. -/
theorem zero_rows_not_rejected : (scoreE zeroRowMat zeroRowMat).isOk = true :=
  (scoreE_isOk_iff zeroRowMat zeroRowMat).mpr ⟨rfl, rfl⟩

/-- C7 as amended: the loss computation fails with a shape error exactly
when the two embedding matrices' column counts or row counts disagree (the
error short-circuits to the caller); zero-row matrices with agreeing shapes
are not rejected. -/
theorem scoreE_ok_iff_shapes_agree (A B : Mat) :
    (scoreE A B).isOk = true ↔ (A.cols = B.cols ∧ A.rows = B.rows) :=
  scoreE_isOk_iff A B

/-- C8: in a model constructed with `share_encoders` on, the document role
reads whatever encoder currently sits in the query slot: after mutating the
query encoder to `E'`, `embed_answers` computes from `E'`. -/
theorem shared_encoder_aliasing {Tok Msk Emb EMsk Pooled Proj : Type}
    (config : RetriBertConfig)
    (bq bd : SentEncoder Tok Msk Emb EMsk Pooled)
    (dropout : Pooled → Pooled) (pq pd : Pooled → Proj)
    (hshare : config.share_encoders = true)
    (E' : SentEncoder Tok Msk Emb EMsk Pooled)
    (input_ids : List Tok) (attention_mask : List Msk) (cbs : Int) :
    embed_answers
      { RetriBert.init config bq bd dropout pq pd with bert_query := E' }
      input_ids attention_mask cbs
      = (embed_sentences_checkpointed E' input_ids attention_mask cbs).map (List.map pd) := by
  unfold embed_answers RetriBert.init
  rw [hshare]
  rfl

/-- Witness for C8 at a concrete shared-encoder model and mutated encoder. -/
theorem shared_encoder_aliasing_witness :
    demoCfg.share_encoders = true ∧
    embed_answers
      { RetriBert.init demoCfg demoEnc demoEnc2 id (fun p => p + 7) (fun p => p + 9) with
          bert_query := demoEnc2 }
      [3, 4] [1, 1] (-1)
      = (embed_sentences_checkpointed demoEnc2 [3, 4] [1, 1] (-1)).map
          (List.map fun p => p + 9) :=
  ⟨rfl, shared_encoder_aliasing demoCfg demoEnc demoEnc2 id (fun p => p + 7)
    (fun p => p + 9) rfl demoEnc2 [3, 4] [1, 1] (-1)⟩

/-- C9: the two projections are independent of one another and of the
encoder-sharing choice: `embed_questions` always applies `project_query`,
`embed_answers` always applies `project_doc`, and replacing one projection
never changes the other role's output. -/
theorem projections_independent {Tok Msk Emb EMsk Pooled Proj : Type}
    (m : RetriBert Tok Msk Emb EMsk Pooled Proj)
    (pq' pd' : Pooled → Proj)
    (input_ids : List Tok) (attention_mask : List Msk) (cbs : Int) :
    embed_questions { m with project_doc := pd' } input_ids attention_mask cbs
        = embed_questions m input_ids attention_mask cbs
    ∧ embed_answers { m with project_query := pq' } input_ids attention_mask cbs
        = embed_answers m input_ids attention_mask cbs
    ∧ embed_questions m input_ids attention_mask cbs
        = (embed_sentences_checkpointed m.bert_query input_ids attention_mask cbs).map
            (List.map m.project_query)
    ∧ embed_answers m input_ids attention_mask cbs
        = (embed_sentences_checkpointed (m.bert_doc.getD m.bert_query) input_ids
            attention_mask cbs).map (List.map m.project_doc) :=
  ⟨rfl, rfl, rfl, rfl⟩

/-- C10: the top-level dropout module is dead state: replacing it (in
particular by the identity) changes none of `embed_questions`,
`embed_answers`, `forward`. -/
theorem dropout_unused {Tok Msk Emb EMsk Pooled : Type}
    (m : RetriBert Tok Msk Emb EMsk Pooled (List ℝ))
    (dropout' : Pooled → Pooled)
    (input_ids_query : List Tok) (attention_mask_query : List Msk)
    (input_ids_doc : List Tok) (attention_mask_doc : List Msk) (cbs : Int) :
    embed_questions { m with dropout := dropout' } input_ids_query attention_mask_query cbs
        = embed_questions m input_ids_query attention_mask_query cbs
    ∧ embed_answers { m with dropout := dropout' } input_ids_doc attention_mask_doc cbs
        = embed_answers m input_ids_doc attention_mask_doc cbs
    ∧ RetriBert.forward { m with dropout := dropout' } input_ids_query attention_mask_query
          input_ids_doc attention_mask_doc cbs
        = RetriBert.forward m input_ids_query attention_mask_query
            input_ids_doc attention_mask_doc cbs :=
  ⟨rfl, rfl, rfl⟩
